import Mathlib

set_option maxRecDepth 8000

/-!
Verification of the markdown-table extraction and rendering pipeline of
app.py (FreeWen travel planner). All string processing is embedded over
List Char; Python str values are Lean String values, and the Python
regular expressions used by the source are realised as explicit matchers
for the concrete patterns that appear in the code.
-/

/-- Python whitespace predicate: the characters matched by str.strip and by
the regex class backslash-s (ASCII range). -/
def isPySpace (c : Char) : Bool :=
  c == ' ' || c == '\t' || c == '\n' || c == '\r' || c == '\x0b' || c == '\x0c'

/-- Python str.strip: drop leading and trailing whitespace. -/
def stripL (cs : List Char) : List Char :=
  ((cs.dropWhile isPySpace).reverse.dropWhile isPySpace).reverse

/-- Python str.split on a newline separator, as used on table text
(app.py line 369). -/
def splitNL : List Char → List (List Char)
  | [] => [[]]
  | '\n' :: rest => [] :: splitNL rest
  | c :: rest =>
    match splitNL rest with
    | g :: gs => (c :: g) :: gs
    | [] => [[c]]

/-- Python str.split on the pipe separator, as used on table lines
(app.py lines 375 and 381). -/
def splitPipe : List Char → List (List Char)
  | [] => [[]]
  | '|' :: rest => [] :: splitPipe rest
  | c :: rest =>
    match splitPipe rest with
    | g :: gs => (c :: g) :: gs
    | [] => [[c]]

/-- One markdown-link occurrence, the regex of convert_markdown_links_to_html
(app.py line 401): a bracketed nonempty text without closing bracket, then a
parenthesised nonempty url without closing parenthesis. Returns the link
text, the url and the rest of the input. -/
def matchMdLink : List Char → Option (List Char × List Char × List Char)
  | '[' :: r =>
    let txt := r.takeWhile (fun c => c != ']')
    match r.dropWhile (fun c => c != ']') with
    | ']' :: '(' :: r2 =>
      let url := r2.takeWhile (fun c => c != ')')
      match r2.dropWhile (fun c => c != ')') with
      | ')' :: r4 => if txt.isEmpty || url.isEmpty then none else some (txt, url, r4)
      | _ => none
    | _ => none
  | _ => none

/-- Replacement template of convert_markdown_links_to_html (app.py line 406):
an HTML anchor opening in a new context. -/
def htmlLink (txt url : List Char) : List Char :=
  "<a href=\"".data ++ url ++ "\" target=\"_blank\">".data ++ txt ++ "</a>".data

/-- Left-to-right non-overlapping substitution pass of re.sub for markdown
links. Fuel bounds the recursion; every step consumes at least one input
character, so input length plus one is always enough. -/
def convLinksAux : Nat → List Char → List Char
  | 0, cs => cs
  | _ + 1, [] => []
  | fuel + 1, c :: cs =>
    match matchMdLink (c :: cs) with
    | some (txt, url, rest) => htmlLink txt url ++ convLinksAux fuel rest
    | none => c :: convLinksAux fuel cs

/-- convert_markdown_links_to_html (app.py lines 395-408). The cells coming
out of the table parser are always strings, so the pandas NA guard of the
source never fires and is not represented. -/
def convert_markdown_links_to_html (s : String) : String :=
  ⟨convLinksAux (s.data.length + 1) s.data⟩

/-- A parsed table: the ordered header names and the data rows of a pandas
DataFrame of strings. -/
structure Table where
  headers : List String
  rows : List (List String)
deriving DecidableEq

/-- Cell list of one table line (app.py lines 375 and 381): split on the
pipe, strip every fragment, and keep exactly the fragments that are nonempty
after stripping. -/
def parseCellsL (l : List Char) : List (List Char) :=
  ((splitPipe l).map stripL).filter (fun c => !c.isEmpty)

/-- String-level view of parseCellsL. -/
def parseCells (line : String) : List String :=
  (parseCellsL line.data).map (fun c => String.mk c)

/-- parse_markdown_table (app.py lines 367-393): strip the text, split into
stripped nonempty lines; fewer than three lines parse to nothing. The first
line gives the headers; the separator line is skipped; every later line
containing a pipe is split into cells, and only rows whose cell count equals
the header count are kept. With no surviving row the result is nothing;
otherwise every cell of every kept row is passed through
convert_markdown_links_to_html. -/
def parse_markdown_table (s : String) : Option Table :=
  match ((splitNL (stripL s.data)).map stripL).filter (fun l => !l.isEmpty) with
  | l0 :: _ :: l2 :: rest =>
    let headers := parseCellsL l0
    let data := (((l2 :: rest).filter (fun l => l.contains '|')).map parseCellsL).filter
        (fun r => r.length == headers.length)
    if data.isEmpty then none
    else some ⟨headers.map (fun c => String.mk c),
               data.map (fun r => r.map (fun c => convert_markdown_links_to_html ⟨c⟩))⟩
  | _ => none

theorem parse_markdown_table_row_width (s : String) (t : Table)
    (h : parse_markdown_table s = some t) :
    ∀ r ∈ t.rows, r.length = t.headers.length := by
  unfold parse_markdown_table at h
  split at h
  case _ l0 l1 l2 rest =>
    simp only at h
    split at h
    · exact absurd h (by simp)
    · rw [Option.some.injEq] at h
      subst h
      intro r hr
      simp only [List.mem_map] at hr
      obtain ⟨r0, hr0, rfl⟩ := hr
      have hw := (List.mem_filter.mp hr0).2
      simp only [beq_iff_eq] at hw
      simp [hw]
  case _ =>
    exact absurd h (by simp)

theorem parse_markdown_table_rows_nonempty (s : String) (t : Table)
    (h : parse_markdown_table s = some t) : t.rows ≠ [] := by
  unfold parse_markdown_table at h
  split at h
  case _ l0 l1 l2 rest =>
    simp only at h
    split at h
    case _ hne => exact absurd h (by simp)
    case _ hne =>
      rw [Option.some.injEq] at h
      subst h
      simpa using hne
  case _ =>
    exact absurd h (by simp)

/-- Claim C1: the Table Extractor drops malformed data rows rather than
truncating or padding them. Every row of a parsed table has exactly as many
cells as there are headers, and on the header "| A | B |", separator
"|---|---|", and data rows "| 1 | 2 |" and "| 3 | x | y |", the parse keeps
exactly the one row with cells "1" and "2"; the parser is a total function,
so the malformed row is discarded without any error. -/
theorem table_extractor_drops_malformed_rows :
    (∀ s t, parse_markdown_table s = some t → ∀ r ∈ t.rows, r.length = t.headers.length)
    ∧ parse_markdown_table "| A | B |\n|---|---|\n| 1 | 2 |\n| 3 | x | y |"
        = some ⟨["A", "B"], [["1", "2"]]⟩ := by
  exact ⟨parse_markdown_table_row_width, by decide⟩

theorem table_extractor_drops_malformed_rows_witness :
    List.length ["1", "2"] = (Table.mk ["A", "B"] [["1", "2"]]).headers.length :=
  table_extractor_drops_malformed_rows.1
    "| A | B |\n|---|---|\n| 1 | 2 |\n| 3 | x | y |"
    ⟨["A", "B"], [["1", "2"]]⟩ (by decide) ["1", "2"] (by decide)

/-- Claim C2 counterexample: the claim predicts that the interior cell of
"| 1 |  | 3 |" that is empty after trimming is kept as an empty-string cell
and counts toward the row width, so that under headers A, B, C the row would
be kept as three cells. In the code, splitting that line yields only the two
cells "1" and "3" (the interior empty fragment is discarded exactly like the
boundary ones), the count 2 differs from 3, and the whole table parse
produces nothing. -/
theorem interior_empty_cell_is_dropped_cex :
    parseCells "| 1 |  | 3 |" = ["1", "3"]
    ∧ parse_markdown_table "| A | B | C |\n|---|---|---|\n| 1 |  | 3 |" = none := by
  decide

/-- Claim C2 (amended): when the Table Extractor splits a header or data line
on the pipe, it trims each fragment and discards every fragment that is empty
after trimming — interior fragments included, not only the boundary ones — so
an interior cell that trims to empty vanishes and lowers the row's cell count;
no parsed cell is ever the empty string. -/
theorem split_discards_all_empty_fragments :
    (∀ line c, c ∈ parseCells line → c ≠ "")
    ∧ parseCells "| 1 |  | 3 |" = ["1", "3"] := by
  constructor
  · intro line c hc
    simp only [parseCells, List.mem_map] at hc
    obtain ⟨c0, hc0, rfl⟩ := hc
    have hne := (List.mem_filter.mp hc0).2
    simp only [Bool.not_eq_true'] at hne
    intro hmk
    rw [String.ext_iff] at hmk
    simp only at hmk
    subst hmk
    simp at hne
  · decide

theorem split_discards_all_empty_fragments_witness : "1" ≠ "" :=
  split_discards_all_empty_fragments.1 "| 1 |  | 3 |" "1" (by decide)

/-- Claim C3: a section text with a header line and separator line but zero
data rows surviving the column-count filter yields no Table at all. A parsed
table never has an empty row list, and the concrete header-plus-separator
text whose only data row has the wrong width parses to nothing. -/
theorem no_table_when_zero_valid_rows :
    (∀ s t, parse_markdown_table s = some t → t.rows ≠ [])
    ∧ parse_markdown_table "| A | B |\n|---|---|\n| x | y | z |" = none := by
  exact ⟨parse_markdown_table_rows_nonempty, by decide⟩

theorem no_table_when_zero_valid_rows_witness :
    ([["1", "2"]] : List (List String)) ≠ [] :=
  no_table_when_zero_valid_rows.1 "| A | B |\n|---|---|\n| 1 | 2 |"
    ⟨["A", "B"], [["1", "2"]]⟩ (by decide)

/-- Bare-URL pattern of mask_url (app.py line 347): http or https scheme,
then one or more characters that are neither whitespace nor a closing
parenthesis. Returns the matched url and the remaining input. -/
def extractUrl (cs : List Char) : Option (List Char × List Char) :=
  if "http://".data.isPrefixOf cs then
    let tail7 := cs.drop 7
    let run := tail7.takeWhile (fun c => !isPySpace c && c != ')')
    if run.isEmpty then none
    else some ("http://".data ++ run, tail7.dropWhile (fun c => !isPySpace c && c != ')'))
  else if "https://".data.isPrefixOf cs then
    let tail8 := cs.drop 8
    let run := tail8.takeWhile (fun c => !isPySpace c && c != ')')
    if run.isEmpty then none
    else some ("https://".data ++ run, tail8.dropWhile (fun c => !isPySpace c && c != ')'))
  else none

/-- ASCII case folding of Python str.lower, applied characterwise. -/
def lowerStr (s : String) : String := ⟨s.data.map Char.toLower⟩

/-- Substring membership, the Python in operator on strings. -/
def containsSub (pat : List Char) : List Char → Bool
  | [] => pat.isEmpty
  | c :: cs => pat.isPrefixOf (c :: cs) || containsSub pat cs

/-- Python substring test on String values. -/
def strIn (pat s : String) : Bool := containsSub pat.data s.data

/-- Flight test of replace_url (app.py line 353). -/
def flightTest (url : String) : Bool :=
  strIn "google.com/travel/flights" url || strIn "flight" (lowerStr url)

/-- Hotel test of replace_url (app.py line 355). -/
def hotelTest (url : String) : Bool :=
  strIn "booking.com" url || strIn "hotel" (lowerStr url) || strIn "agoda" url

/-- Map test of replace_url (app.py line 357). -/
def mapTest (url : String) : Bool :=
  strIn "google.com/maps" url || strIn "maps" (lowerStr url)

/-- replace_url (app.py lines 350-360): categorize one bare url, trying the
flight, hotel and map tests in that order, first match winning; the final
branch uses the default link text of mask_url. -/
def replace_url (url : String) : String :=
  if flightTest url then "[✈️ Book Flight](" ++ url ++ ")"
  else if hotelTest url then "[🏨 Book Hotel](" ++ url ++ ")"
  else if mapTest url then "[📍 View Map](" ++ url ++ ")"
  else "[🔗 Link](" ++ url ++ ")"

/-- Substitution pass of re.sub for the url pattern guarded by the negative
lookbehind for a bracket-parenthesis pair (app.py line 364). p2 and p1 are
the two characters of the original text just before the current position;
re matching always inspects the original text, so after a replacement the
scan continues with the last two characters of the matched url. Fuel bounds
the recursion; every step consumes at least one input character. -/
def maskUrlAux : Nat → Option Char → Option Char → List Char → List Char
  | 0, _, _, cs => cs
  | _ + 1, _, _, [] => []
  | fuel + 1, p2, p1, c :: cs =>
    match extractUrl (c :: cs) with
    | some (url, rest) =>
      if p2 == some ']' && p1 == some '(' then
        c :: maskUrlAux fuel p1 (some c) cs
      else
        (replace_url ⟨url⟩).data ++
          maskUrlAux fuel url.dropLast.getLast? url.getLast? rest
    | none => c :: maskUrlAux fuel p1 (some c) cs

/-- Bare-url detector with the same scan structure as maskUrlAux: true exactly
when some position matches the url pattern and is not blocked by the
lookbehind. -/
def hasBareUrlAux : Nat → Option Char → Option Char → List Char → Bool
  | 0, _, _, _ => false
  | _ + 1, _, _, [] => false
  | fuel + 1, p2, p1, c :: cs =>
    match extractUrl (c :: cs) with
    | some _ =>
      if p2 == some ']' && p1 == some '(' then hasBareUrlAux fuel p1 (some c) cs
      else true
    | none => hasBareUrlAux fuel p1 (some c) cs

/-- Whether a text contains a bare url in the sense of mask_url. -/
def hasBareUrl (s : String) : Bool :=
  hasBareUrlAux (s.data.length + 1) none none s.data

/-- mask_url (app.py lines 344-365) with its default link text. -/
def mask_url (s : String) : String :=
  ⟨maskUrlAux (s.data.length + 1) none none s.data⟩

/-- The two characters of cs just before position j, seeded with p2 and p1
for positions before the start. -/
def lookTwo : Option Char → Option Char → List Char → Nat → Option Char × Option Char
  | p2, p1, _, 0 => (p2, p1)
  | p2, p1, [], _ + 1 => (p2, p1)
  | _, p1, c :: cs, j + 1 => lookTwo p1 (some c) cs j

/-- Every occurrence of the url pattern in s is immediately preceded by a
bracket-parenthesis pair, the already-wrapped shape of a markdown link. -/
def urlWrapped (s : String) : Prop :=
  ∀ j : Fin s.data.length, (extractUrl (s.data.drop j.val)).isSome = true →
    lookTwo none none s.data j.val = (some ']', some '(')

instance (s : String) : Decidable (urlWrapped s) := by
  unfold urlWrapped
  infer_instance

theorem maskUrlAux_of_not_hasBare :
    ∀ (fuel : Nat) (p2 p1 : Option Char) (cs : List Char),
      hasBareUrlAux fuel p2 p1 cs = false → maskUrlAux fuel p2 p1 cs = cs := by
  intro fuel
  induction fuel with
  | zero => intro p2 p1 cs _; rfl
  | succ fuel ih =>
    intro p2 p1 cs h
    cases cs with
    | nil => rfl
    | cons c cs' =>
      rw [hasBareUrlAux] at h
      rw [maskUrlAux]
      cases hE : extractUrl (c :: cs') with
      | some u =>
        obtain ⟨url, rest⟩ := u
        rw [hE] at h
        simp only at h ⊢
        split at h
        case _ hb =>
          rw [if_pos hb, ih p1 (some c) cs' h]
        case _ hb => exact absurd h (by simp)
      | none =>
        rw [hE] at h
        simp only at h ⊢
        rw [ih p1 (some c) cs' h]

theorem hasBareUrlAux_of_wrapped :
    ∀ (fuel : Nat) (p2 p1 : Option Char) (cs : List Char),
      (∀ j : Nat, (extractUrl (cs.drop j)).isSome = true →
        lookTwo p2 p1 cs j = (some ']', some '(')) →
      hasBareUrlAux fuel p2 p1 cs = false := by
  intro fuel
  induction fuel with
  | zero => intro p2 p1 cs _; rfl
  | succ fuel ih =>
    intro p2 p1 cs hw
    cases cs with
    | nil => rfl
    | cons c cs' =>
      rw [hasBareUrlAux]
      cases hE : extractUrl (c :: cs') with
      | some u =>
        have h0 := hw 0 (by simp [hE])
        simp only [lookTwo, Prod.mk.injEq] at h0
        obtain ⟨h2, h1⟩ := h0
        subst h2
        subst h1
        simp only
        rw [if_pos (by decide)]
        exact ih (some '(') (some c) cs' (fun j hj => hw (j + 1) hj)
      | none =>
        simp only
        exact ih p1 (some c) cs' (fun j hj => hw (j + 1) hj)

/-- Claim C8: on every text with no bare url the Link Normalizer returns the
text unchanged and is therefore idempotent; and a text in which every url
occurrence is already immediately preceded by a bracket-parenthesis pair —
one where every url is wrapped as a markdown link — contains no bare url. -/
theorem link_normalizer_noop_on_no_bare_urls (s : String) :
    (hasBareUrl s = false → mask_url s = s ∧ mask_url (mask_url s) = mask_url s)
    ∧ (urlWrapped s → hasBareUrl s = false) := by
  constructor
  · intro h
    have h2 : hasBareUrlAux (s.data.length + 1) none none s.data = false := h
    have h3 := maskUrlAux_of_not_hasBare (s.data.length + 1) none none s.data h2
    have hid : mask_url s = s := (congrArg String.mk h3).trans rfl
    exact ⟨hid, by rw [hid]; exact hid⟩
  · intro hw
    apply hasBareUrlAux_of_wrapped
    intro j hj
    by_cases hlt : j < s.data.length
    · exact hw ⟨j, hlt⟩ hj
    · exfalso
      rw [List.drop_of_length_le (Nat.le_of_not_lt hlt)] at hj
      exact absurd hj (by decide)

theorem link_normalizer_noop_witness :
    mask_url "Book at [Site](https://example.com/hotel) now" =
      "Book at [Site](https://example.com/hotel) now"
    ∧ hasBareUrl "see [m](http://maps.example.com/a) end" = false := by
  constructor
  · exact ((link_normalizer_noop_on_no_bare_urls
      "Book at [Site](https://example.com/hotel) now").1 (by decide)).1
  · exact (link_normalizer_noop_on_no_bare_urls
      "see [m](http://maps.example.com/a) end").2 (by decide)

/-- Claim C7: the Link Normalizer categorizes each bare url by trying the
flight, hotel, map and generic rules in that fixed order with first match
winning; in particular a url passing the flight test gets the flight label
even when it also passes the hotel test. -/
theorem link_categorization_order (url : String) :
    (flightTest url = true → replace_url url = "[✈️ Book Flight](" ++ url ++ ")")
    ∧ (flightTest url = false → hotelTest url = true →
        replace_url url = "[🏨 Book Hotel](" ++ url ++ ")")
    ∧ (flightTest url = false → hotelTest url = false → mapTest url = true →
        replace_url url = "[📍 View Map](" ++ url ++ ")")
    ∧ (flightTest url = false → hotelTest url = false → mapTest url = false →
        replace_url url = "[🔗 Link](" ++ url ++ ")") := by
  refine ⟨fun hf => ?_, fun hf hh => ?_, fun hf hh hm => ?_, fun hf hh hm => ?_⟩ <;>
    simp [replace_url, *]

theorem link_categorization_order_witness :
    flightTest "https://example.com/flight-hotel-deals" = true
    ∧ hotelTest "https://example.com/flight-hotel-deals" = true
    ∧ replace_url "https://example.com/flight-hotel-deals" =
        "[✈️ Book Flight](" ++ "https://example.com/flight-hotel-deals" ++ ")" :=
  ⟨by decide, by decide,
    (link_categorization_order "https://example.com/flight-hotel-deals").1 (by decide)⟩

/-- Categories assigned by the section dispatch of
parse_and_display_travel_plan (app.py lines 431-596). -/
inductive SectionCategory
  | flights
  | hotels
  | itinerary
  | budget
  | mapSec
  | other
deriving DecidableEq

/-- Section title (app.py lines 427-428): strip the fragment, take its first
line, strip it and uppercase it (ASCII uppercasing; characters outside the
ASCII letters, such as emoji, are unchanged, as in Python for them). -/
def sectionTitle (sec : String) : String :=
  ⟨(stripL ((stripL sec.data).takeWhile (fun c => c != '\n'))).map Char.toUpper⟩

/-- Classification chain over the title (app.py lines 431, 447, 462, 574,
589): substring tests in a fixed order, first match winning. -/
def classifyTitle (title : String) : SectionCategory :=
  if strIn "FLIGHT" title then .flights
  else if strIn "HOTEL" title then .hotels
  else if strIn "ITINERARY" title then .itinerary
  else if strIn "BUDGET" title then .budget
  else if strIn "DESTINATION MAP" title || strIn "MAP" title then .mapSec
  else .other

/-- Category of a section fragment: the classification chain applied to its
title line. -/
def sectionCategory (sec : String) : SectionCategory :=
  classifyTitle (sectionTitle sec)

/-- Claim C6: the Section Splitter classifies every section by its title line
only — two fragments with the same title line classify identically — testing
keyword membership in the fixed order FLIGHT, HOTEL, ITINERARY, BUDGET, then
DESTINATION MAP or MAP, otherwise Other, first match winning; and the title
with surrounding emoji classifies as Hotels, also when the fragment arrives
in mixed case. -/
theorem section_splitter_title_order :
    (∀ s1 s2 : String, sectionTitle s1 = sectionTitle s2 →
      sectionCategory s1 = sectionCategory s2)
    ∧ (∀ t, strIn "FLIGHT" t = true → classifyTitle t = .flights)
    ∧ (∀ t, strIn "FLIGHT" t = false → strIn "HOTEL" t = true →
        classifyTitle t = .hotels)
    ∧ (∀ t, strIn "FLIGHT" t = false → strIn "HOTEL" t = false →
        strIn "ITINERARY" t = true → classifyTitle t = .itinerary)
    ∧ (∀ t, strIn "FLIGHT" t = false → strIn "HOTEL" t = false →
        strIn "ITINERARY" t = false → strIn "BUDGET" t = true →
        classifyTitle t = .budget)
    ∧ (∀ t, strIn "FLIGHT" t = false → strIn "HOTEL" t = false →
        strIn "ITINERARY" t = false → strIn "BUDGET" t = false →
        (strIn "DESTINATION MAP" t || strIn "MAP" t) = true →
        classifyTitle t = .mapSec)
    ∧ (∀ t, strIn "FLIGHT" t = false → strIn "HOTEL" t = false →
        strIn "ITINERARY" t = false → strIn "BUDGET" t = false →
        strIn "DESTINATION MAP" t = false → strIn "MAP" t = false →
        classifyTitle t = .other)
    ∧ classifyTitle "🏨 HOTEL RECOMMENDATIONS" = .hotels
    ∧ sectionCategory " 🏨 Hotel Recommendations\nSome body text here" = .hotels := by
  refine ⟨?_, ?_, ?_, ?_, ?_, ?_, ?_, by decide, by decide⟩
  · intro s1 s2 h
    unfold sectionCategory
    rw [h]
  · intro t hf
    simp [classifyTitle, hf]
  · intro t hf hh
    simp [classifyTitle, hf, hh]
  · intro t hf hh hi
    simp [classifyTitle, hf, hh, hi]
  · intro t hf hh hi hb
    simp [classifyTitle, hf, hh, hi, hb]
  · intro t hf hh hi hb hm
    simp [classifyTitle, hf, hh, hi, hb, hm]
  · intro t hf hh hi hb hd hm
    simp [classifyTitle, hf, hh, hi, hb, hd, hm]

theorem section_splitter_title_order_witness :
    classifyTitle "💰 BUDGET BREAKDOWN" = SectionCategory.budget :=
  section_splitter_title_order.2.2.2.2.1 "💰 BUDGET BREAKDOWN"
    (by decide) (by decide) (by decide) (by decide)

/-- Character class of the separator pattern (app.py line 435): dash,
whitespace or pipe. The regex class includes the newline because the
whitespace class does. -/
def isSepChar (c : Char) : Bool := c == '-' || isPySpace c || c == '|'

/-- Match of the header-line piece of the table pattern at the head of the
input: a pipe, a second pipe later on the same line, the line terminated by
a newline; the dot of the pattern never crosses a newline, so the consumed
extent always ends at the first newline. Returns consumed and rest. -/
def matchHeaderLine (cs : List Char) : Option (List Char × List Char) :=
  match cs with
  | '|' :: r =>
    let content := r.takeWhile (fun c => c != '\n')
    if content.contains '|' then
      match r.dropWhile (fun c => c != '\n') with
      | '\n' :: rest => some ('|' :: content ++ ['\n'], rest)
      | _ => none
    else none
  | _ => none

/-- Greedy match of the repeated data-line piece: maximal run of
newline-terminated lines starting with a pipe, at least one required.
Fuel bounds the recursion. -/
def matchDataLines : Nat → List Char → Option (List Char × List Char)
  | 0, _ => none
  | fuel + 1, cs =>
    match cs with
    | '|' :: r =>
      let content := r.takeWhile (fun c => c != '\n')
      match r.dropWhile (fun c => c != '\n') with
      | '\n' :: rest =>
        match matchDataLines fuel rest with
        | some (more, rest2) => some ('|' :: content ++ '\n' :: more, rest2)
        | none => some ('|' :: content ++ ['\n'], rest)
      | _ => none
    | _ => none

/-- Backtracking over the separator piece: the one-or-more class run is
greedy, so the newline ending it is the latest newline inside the run that
leaves a matching data-line tail; p counts the class characters consumed
before that newline and is tried in descending order. run is the maximal
class run after the opening pipe, rest the input after it. -/
def trySepSplits (run rest : List Char) : List Nat → Option (List Char × List Char)
  | [] => none
  | p :: ps =>
    if (run.drop p).head? = some '\n' then
      if 1 ≤ p then
        let after := run.drop (p + 1) ++ rest
        match matchDataLines (after.length + 1) after with
        | some (dls, rest2) => some ('|' :: run.take (p + 1) ++ dls, rest2)
        | none => trySepSplits run rest ps
      else trySepSplits run rest ps
    else trySepSplits run rest ps

/-- Match of the separator-plus-data piece of the table pattern at the head
of the input: an opening pipe, a nonempty greedy run of separator-class
characters ended by a newline, then the data lines. -/
def matchSepData (cs : List Char) : Option (List Char × List Char) :=
  match cs with
  | '|' :: r =>
    let run := r.takeWhile isSepChar
    trySepSplits run (r.dropWhile isSepChar) (List.range run.length).reverse
  | _ => none

/-- Full table pattern of app.py line 435 at one position: header piece then
separator-plus-data piece; returns the whole matched extent, the group(0)
handed to parse_markdown_table. -/
def matchTableAt (cs : List Char) : Option (List Char) :=
  match matchHeaderLine cs with
  | some (hl, r1) =>
    match matchSepData r1 with
    | some (sd, _) => some (hl ++ sd)
    | none => none
  | none => none

/-- re.search scan for the table pattern: leftmost matching position wins. -/
def searchTable : List Char → Option (List Char)
  | [] => none
  | c :: cs =>
    match matchTableAt (c :: cs) with
    | some m => some m
    | none => searchTable cs

/-- Category-to-key mapping of the storing branches of
parse_and_display_travel_plan (app.py lines 441, 456, 565, 583): the map and
other branches store nothing. -/
def categoryKey : SectionCategory → Option String
  | .flights => some "Flights"
  | .hotels => some "Hotels"
  | .itinerary => some "Itinerary"
  | .budget => some "Budget"
  | .mapSec => none
  | .other => none

/-- Table of one section (app.py lines 434-441 and parallels): search the
section text for the table pattern, parse the matched block; the parser
already returns nothing for an empty frame, so the nonempty test of the
source coincides with a successful parse. -/
def sectionTable (sec : String) : Option Table :=
  match searchTable sec.data with
  | some block => parse_markdown_table ⟨block⟩
  | none => none

/-- Export entry contributed by one section: its category key together with
its parsed table, when both exist. -/
def sectionEntry (sec : String) : Option (String × Table) :=
  match categoryKey (sectionCategory sec), sectionTable sec with
  | some k, some t => some (k, t)
  | _, _ => none

/-- Python dict assignment on an association list: an existing key keeps its
slot but takes the new value, a new key is appended. -/
def dictInsert : List (String × Table) → String → Table → List (String × Table)
  | [], k, v => [(k, v)]
  | (k', v') :: d, k, v =>
    if k' == k then (k, v) :: d else (k', v') :: dictInsert d k v

/-- Python dict lookup on an association list. -/
def dictLookup (k : String) : List (String × Table) → Option Table
  | [] => none
  | (k', v) :: d => if k' == k then some v else dictLookup k d

/-- Section fragments of a document (app.py lines 417-423): mask the urls,
split on the double hash marker, and skip fragments that strip to empty. -/
def splitHashHash : List Char → List (List Char)
  | [] => [[]]
  | '#' :: '#' :: rest => [] :: splitHashHash rest
  | c :: rest =>
    match splitHashHash rest with
    | g :: gs => (c :: g) :: gs
    | [] => [[c]]

def sectionsOf (doc : String) : List String :=
  ((splitHashHash (mask_url doc).data).map (fun c => (⟨c⟩ : String))).filter
    (fun s => !(stripL s.data).isEmpty)

/-- Accumulation step of the section loop: a section that classifies to a
stored category and parses to a table is assigned into the dict. -/
def addEntry (d : List (String × Table)) (sec : String) : List (String × Table) :=
  match sectionEntry sec with
  | some (k, t) => dictInsert d k t
  | none => d

/-- parse_and_display_travel_plan (app.py lines 410-598), restricted to the
value it returns: the dict of named frames assembled over the sections. The
display calls write to the UI only and do not touch the dict. -/
def parse_and_display_travel_plan (doc : String) : List (String × Table) :=
  (sectionsOf doc).foldl addEntry []

/-- Last table assigned to a key by a list of entries, in entry order. -/
def lastTable (k : String) : List (String × Table) → Option Table
  | [] => none
  | (k', v) :: es =>
    match lastTable k es with
    | some w => some w
    | none => if k' == k then some v else none

theorem dictLookup_dictInsert (d : List (String × Table)) (k k' : String) (t : Table) :
    dictLookup k (dictInsert d k' t) =
      if k' == k then some t else dictLookup k d := by
  induction d with
  | nil => rfl
  | cons e d ih =>
    obtain ⟨a, b⟩ := e
    rw [dictInsert]
    by_cases hak : a = k'
    · subst hak
      by_cases hkk : a = k
      · subst hkk
        simp [dictLookup]
      · simp [dictLookup, hkk]
    · by_cases hkk : a = k
      · subst hkk
        have hka : k' ≠ a := fun he => hak he.symm
        simp [dictLookup, hak, hka, ih]
      · simp [dictLookup, hak, hkk, ih]

theorem dictLookup_foldl_addEntry (secs : List String) :
    ∀ (d : List (String × Table)) (k : String),
      dictLookup k (secs.foldl addEntry d) =
        match lastTable k (secs.filterMap sectionEntry) with
        | some v => some v
        | none => dictLookup k d := by
  induction secs with
  | nil => intro d k; rfl
  | cons s ss ih =>
    intro d k
    rw [List.foldl_cons, List.filterMap_cons]
    cases hE : sectionEntry s with
    | none =>
      have : addEntry d s = d := by rw [addEntry, hE]
      rw [this, ih]
    | some e =>
      obtain ⟨k', t⟩ := e
      have : addEntry d s = dictInsert d k' t := by rw [addEntry, hE]
      rw [this, ih, lastTable]
      cases lastTable k (ss.filterMap sectionEntry) with
      | some w => rfl
      | none =>
        simp only
        rw [dictLookup_dictInsert]
        by_cases hk : k' == k
        · rw [if_pos hk, if_pos hk]
        · rw [if_neg hk, if_neg hk]

/-- Claim C5 counterexample: in a document with two flight sections, each
holding a successfully parsed table, the two sections contribute two entries
for the Flights category and the collection retains the second table, not the
first — later tables of the same category do replace the earlier one. -/
theorem first_table_not_retained_cex :
    (sectionsOf "## Flight Options A\n| A | B |\n|---|---|\n| 1 | 2 |\n\n## Flight Options B\n| A | B |\n|---|---|\n| 9 | 8 |\n").filterMap sectionEntry
      = [("Flights", ⟨["A", "B"], [["1", "2"]]⟩), ("Flights", ⟨["A", "B"], [["9", "8"]]⟩)]
    ∧ parse_and_display_travel_plan "## Flight Options A\n| A | B |\n|---|---|\n| 1 | 2 |\n\n## Flight Options B\n| A | B |\n|---|---|\n| 9 | 8 |\n"
      = [("Flights", ⟨["A", "B"], [["9", "8"]]⟩)]
    ∧ (Table.mk ["A", "B"] [["1", "2"]]) ≠ (Table.mk ["A", "B"] [["9", "8"]]) := by
  refine ⟨by decide, by decide, by decide⟩

/-- Claim C5 (amended): when several sections of one document map to the same
category and more than one contains a successfully parsed table, the
collection retains the LAST successfully parsed table per category — each
later table of a category replaces the earlier one in place. -/
theorem last_table_per_category_retained (doc : String) (k : String) :
    dictLookup k (parse_and_display_travel_plan doc)
      = lastTable k ((sectionsOf doc).filterMap sectionEntry) := by
  rw [parse_and_display_travel_plan, dictLookup_foldl_addEntry]
  cases lastTable k ((sectionsOf doc).filterMap sectionEntry) with
  | some w => rfl
  | none => rfl

/-- Distinct values in first-occurrence order, the pandas unique used on the
Day column (app.py line 509); seen holds the values already emitted. -/
def firstOcc (seen : List String) : List String → List String
  | [] => []
  | d :: ds => if d ∈ seen then firstOcc seen ds else d :: firstOcc (d :: seen) ds

/-- Cell of a row under a named column: the entry at the column's position in
the header list, empty when absent. -/
def cellAt (t : Table) (col : String) (r : List String) : String :=
  (r.get? (t.headers.indexOf col)).getD ""

/-- Case-insensitive literal match of re.IGNORECASE, folding ASCII case.
Returns the input after the pattern when it matches at the head. -/
def ciPrefix : List Char → List Char → Option (List Char)
  | [], cs => some cs
  | _ :: _, [] => none
  | p :: ps, c :: cs => if p.toLower == c.toLower then ciPrefix ps cs else none

/-- Character class of the capture group: anything but a star or newline. -/
def capClass (c : Char) : Bool := c != '*' && c != '\n'

/-- Greedy star-of-whitespace followed by the one-or-more capture group, with
backtracking: d counts the whitespace characters consumed, tried in
descending order; the first d with a nonempty class run after it wins. -/
def captureFrom (r : List Char) : Nat → Option (List Char)
  | 0 =>
    let cap := r.takeWhile capClass
    if cap.isEmpty then none else some cap
  | d + 1 =>
    let cap := (r.drop (d + 1)).takeWhile capClass
    if cap.isEmpty then captureFrom r d else some cap

/-- The piece of the day-total pattern after the optional colon: whitespace
star then the capture group. -/
def findCapture (r : List Char) : Option (List Char) :=
  captureFrom r (r.takeWhile isPySpace).length

/-- Attempt of the day-total pattern (app.py line 556) at the head of the
input: the bold day-total marker (matched case-insensitively), an optional
colon — tried consumed first, with backtracking to the unconsumed reading —
then the captured group. -/
def matchDayTotalAt (day : List Char) (cs : List Char) : Option (List Char) :=
  match ciPrefix ("**Day ".data ++ day ++ " Total".data) cs with
  | none => none
  | some r =>
    match r with
    | ':' :: r2 =>
      match findCapture r2 with
      | some cap => some cap
      | none => findCapture r
    | _ => findCapture r

/-- Scan of re.search for the day-total pattern: leftmost match wins. -/
def searchDayTotalL (day : List Char) : List Char → Option (List Char)
  | [] => none
  | c :: cs =>
    match matchDayTotalAt day (c :: cs) with
    | some cap => some cap
    | none => searchDayTotalL day cs

/-- The day-total pattern source (app.py line 556): the f-string interpolates
the Day cell value verbatim into the regex, with no escaping. -/
def day_total_pattern (day : String) : String :=
  "\\*\\*Day " ++ day ++ " Total:?\\s*([^\\*\\n]+)"

/-- Group-structure validation performed by re.compile: scanning left to
right, a backslash escapes the next character, brackets open and close a
character class in which parentheses are literals, every group parenthesis
must be balanced and a class must be closed. re.compile raises re.error for a
pattern violating this structure, aborting the caller; this models that
compilation check. depth counts open groups, inClass tracks an open class. -/
def regexGroupsOk : List Char → Nat → Bool → Bool
  | [], depth, inClass => depth == 0 && !inClass
  | '\\' :: rest, depth, inClass =>
    match rest with
    | [] => false
    | _ :: rest2 => regexGroupsOk rest2 depth inClass
  | '[' :: rest, depth, false => regexGroupsOk rest depth true
  | ']' :: rest, depth, true => regexGroupsOk rest depth false
  | '(' :: rest, depth, false => regexGroupsOk rest (depth + 1) false
  | ')' :: rest, depth, false =>
    match depth with
    | 0 => false
    | d + 1 => regexGroupsOk rest d false
  | _ :: rest, depth, inClass => regexGroupsOk rest depth inClass

/-- Whether a regex source compiles as far as group and class structure goes. -/
def regexValid (p : String) : Bool := regexGroupsOk p.data 0 false

/-- Python regex metacharacters: a pattern character outside a class and
outside an escape stands for itself exactly when it is none of these. -/
def isReMeta (c : Char) : Bool :=
  c == '\\' || c == '.' || c == '^' || c == '$' || c == '*' || c == '+' ||
  c == '?' || c == '(' || c == ')' || c == '[' || c == ']' ||
  c == '\x7b' || c == '\x7d' || c == '|'

/-- Day values that interpolate into day_total_pattern as pure literals: no
character of the value is a regex metacharacter. For these the compiled
pattern is exactly the case-insensitive literal day-total marker followed by
the optional colon, greedy whitespace and the single capture group. -/
def dayLiteralFragment (day : String) : Bool :=
  day.data.all (fun c => !isReMeta c)

/-- Search semantics of the compiled day-total pattern for a
metacharacter-free day value: leftmost case-insensitive occurrence of the
literal marker, then group(1) stripped (app.py lines 557-559). -/
def searchDayTotalLit (day : String) (sectionText : String) : Option String :=
  (searchDayTotalL day.data sectionText.data).map (fun cap => (⟨stripL cap⟩ : String))

/-- Day-total lookup (app.py lines 556-559): re.search first compiles
day_total_pattern day; a pattern failing the group-structure check raises
re.error — modeled as the error value carrying the offending pattern — and
the exception propagates out of the rendering loop. A compiling pattern is
searched; searchDayTotalLit is its exact semantics whenever the day value is
free of regex metacharacters, the domain to which every theorem reading a
summary restricts itself. A day value that contains a metacharacter yet
still compiles is matched by Python under full regex semantics, which this
development does not model; no theorem below touches that region. -/
def searchDayTotal (day : String) (sectionText : String) : Except String (Option String) :=
  if regexValid (day_total_pattern day) then Except.ok (searchDayTotalLit day sectionText)
  else Except.error (day_total_pattern day)

/-- One display group of the itinerary rendering loop (app.py lines 508-563). -/
structure DayGroup where
  day : String
  date : String
  groupRows : List (List String)
  summary : Option String
deriving DecidableEq

instance {ε α : Type} [DecidableEq ε] [DecidableEq α] : DecidableEq (Except ε α) :=
  fun a b =>
  match a, b with
  | Except.error e, Except.error f =>
    if h : e = f then Decidable.isTrue (by rw [h])
    else Decidable.isFalse (fun hx => h (Except.error.inj hx))
  | Except.error _, Except.ok _ => Decidable.isFalse (fun hx => Except.noConfusion hx)
  | Except.ok _, Except.error _ => Decidable.isFalse (fun hx => Except.noConfusion hx)
  | Except.ok x, Except.ok y =>
    if h : x = y then Decidable.isTrue (by rw [h])
    else Decidable.isFalse (fun hx => h (Except.ok.inj hx))

/-- Group construction over the distinct day values in order (app.py lines
510-563): each day's summary lookup runs re.search, and the first day whose
pattern fails to compile raises re.error out of the loop, so the pass
produces no group list at all. -/
def buildDayGroups (t : Table) (s : String) : List String → Except String (List DayGroup)
  | [] => Except.ok []
  | d :: ds =>
    match searchDayTotal d s with
    | Except.error e => Except.error e
    | Except.ok summ =>
      match buildDayGroups t s ds with
      | Except.error e => Except.error e
      | Except.ok gs =>
        let rs := t.rows.filter (fun r => cellAt t "Day" r == d)
        Except.ok ({ day := d
                     date := if "Date" ∈ t.headers then
                         ((rs.head?).map (cellAt t "Date")).getD "" else ""
                     groupRows := rs
                     summary := summ } :: gs)

/-- Itinerary grouping (app.py lines 508-563): when a Day column exists, one
group per distinct Day value in first-occurrence order — each group holding
the rows sharing that Day value in original order, its Date from the first
such row (empty when no Date column) and its day-total summary — unless some
day's summary pattern fails to compile, in which case re.error aborts the
pass (lines 556-557). Without a Day column the itinerary stays flat and no
grouping happens. -/
def groupItinerary (t : Table) (sectionText : String) :
    Option (Except String (List DayGroup)) :=
  if "Day" ∈ t.headers then
    some (buildDayGroups t sectionText (firstOcc [] (t.rows.map (cellAt t "Day"))))
  else none

theorem mem_firstOcc (a : String) :
    ∀ (l seen : List String), a ∈ firstOcc seen l ↔ a ∈ l ∧ a ∉ seen := by
  intro l
  induction l with
  | nil => intro seen; simp [firstOcc]
  | cons d ds ih =>
    intro seen
    rw [firstOcc]
    by_cases hd : d ∈ seen
    · rw [if_pos hd, ih]
      constructor
      · exact fun ⟨h1, h2⟩ => ⟨List.mem_cons_of_mem d h1, h2⟩
      · rintro ⟨h1, h2⟩
        rcases List.mem_cons.mp h1 with he | hm
        · exact absurd (he ▸ hd) h2
        · exact ⟨hm, h2⟩
    · rw [if_neg hd]
      constructor
      · intro h
        rcases List.mem_cons.mp h with he | hm
        · exact ⟨he ▸ List.mem_cons_self d ds, he ▸ hd⟩
        · obtain ⟨h1, h2⟩ := (ih (d :: seen)).mp hm
          exact ⟨List.mem_cons_of_mem d h1,
            fun hs => h2 (List.mem_cons_of_mem d hs)⟩
      · rintro ⟨h1, h2⟩
        rcases List.mem_cons.mp h1 with he | hm
        · exact he ▸ List.mem_cons_self d _
        · by_cases had : a = d
          · exact had ▸ List.mem_cons_self d _
          · exact List.mem_cons_of_mem d ((ih (d :: seen)).mpr
              ⟨hm, fun hs => (List.mem_cons.mp hs).elim had h2⟩)

theorem nodup_firstOcc : ∀ (l seen : List String), (firstOcc seen l).Nodup := by
  intro l
  induction l with
  | nil => intro seen; simp [firstOcc]
  | cons d ds ih =>
    intro seen
    rw [firstOcc]
    by_cases hd : d ∈ seen
    · rw [if_pos hd]; exact ih seen
    · rw [if_neg hd]
      refine List.nodup_cons.mpr ⟨?_, ih (d :: seen)⟩
      intro hmem
      exact ((mem_firstOcc d ds (d :: seen)).mp hmem).2 (List.mem_cons_self d seen)

theorem map_day_map (f : String → DayGroup) (hf : ∀ d, (f d).day = d) :
    ∀ L : List String, (L.map f).map DayGroup.day = L := by
  intro L
  induction L with
  | nil => rfl
  | cons a l ih => simp [hf, ih]

theorem regexGroupsOk_cons_plain (c : Char) (rest : List Char) (depth : Nat)
    (inClass : Bool) (hc : isReMeta c = false) :
    regexGroupsOk (c :: rest) depth inClass = regexGroupsOk rest depth inClass := by
  have h1 : c ≠ '\\' := fun he => by subst he; simp [isReMeta] at hc
  have h2 : c ≠ '[' := fun he => by subst he; simp [isReMeta] at hc
  have h3 : c ≠ ']' := fun he => by subst he; simp [isReMeta] at hc
  have h4 : c ≠ '(' := fun he => by subst he; simp [isReMeta] at hc
  have h5 : c ≠ ')' := fun he => by subst he; simp [isReMeta] at hc
  simp [regexGroupsOk, h1, h2, h3, h4, h5]

theorem regexGroupsOk_append_literal :
    ∀ (cs : List Char), (∀ c ∈ cs, isReMeta c = false) →
      ∀ (rest : List Char) (depth : Nat) (inClass : Bool),
        regexGroupsOk (cs ++ rest) depth inClass = regexGroupsOk rest depth inClass := by
  intro cs
  induction cs with
  | nil =>
    intro _ rest depth inClass
    rfl
  | cons c cs' ih =>
    intro h rest depth inClass
    have hc : isReMeta c = false := h c (List.mem_cons_self c cs')
    have h' : ∀ x ∈ cs', isReMeta x = false :=
      fun x hx => h x (List.mem_cons_of_mem c hx)
    rw [List.cons_append, regexGroupsOk_cons_plain c (cs' ++ rest) depth inClass hc]
    exact ih h' rest depth inClass

theorem day_total_pattern_compiles (day : String)
    (h : dayLiteralFragment day = true) :
    regexValid (day_total_pattern day) = true := by
  have hall : ∀ c ∈ day.data, isReMeta c = false := by
    rw [dayLiteralFragment] at h
    intro c hc
    have h2 := List.all_eq_true.mp h c hc
    simpa using h2
  have h1 : regexValid (day_total_pattern day)
      = regexGroupsOk ("\\*\\*Day ".data
          ++ (day.data ++ " Total:?\\s*([^\\*\\n]+)".data)) 0 false := by
    rw [regexValid, day_total_pattern, String.data_append, String.data_append,
      List.append_assoc]
  have h2 : regexGroupsOk ("\\*\\*Day ".data
      ++ (day.data ++ " Total:?\\s*([^\\*\\n]+)".data)) 0 false
      = regexGroupsOk (day.data ++ " Total:?\\s*([^\\*\\n]+)".data) 0 false := rfl
  rw [h1, h2, regexGroupsOk_append_literal day.data hall]
  decide

theorem buildDayGroups_ok (t : Table) (s : String) :
    ∀ (days : List String), (∀ d ∈ days, dayLiteralFragment d = true) →
      buildDayGroups t s days = Except.ok (days.map (fun d =>
        let rs := t.rows.filter (fun r => cellAt t "Day" r == d)
        { day := d
          date := if "Date" ∈ t.headers then
              ((rs.head?).map (cellAt t "Date")).getD "" else ""
          groupRows := rs
          summary := searchDayTotalLit d s })) := by
  intro days
  induction days with
  | nil =>
    intro _
    rfl
  | cons d ds ih =>
    intro h
    have hd := h d (List.mem_cons_self d ds)
    have hds : ∀ x ∈ ds, dayLiteralFragment x = true :=
      fun x hx => h x (List.mem_cons_of_mem d hx)
    have hok : searchDayTotal d s = Except.ok (searchDayTotalLit d s) := by
      rw [searchDayTotal, if_pos (day_total_pattern_compiles d hd)]
    rw [buildDayGroups, hok, ih hds]
    rfl

/-- Claim C4 counterexample: the claim promises one group per distinct Day
value for every itinerary table with a Day column, but the Day cell value is
interpolated unescaped into the summary regex (app.py line 556), so on a
table whose first Day value carries an unbalanced parenthesis the lookup's
pattern fails to compile and re.error aborts the rendering pass — no group is
produced, not even for the well-formed second day whose total line is present
in the trailing text. -/
theorem itinerary_grouper_aborts_on_metachar_day_cex :
    groupItinerary
        (Table.mk ["Day", "Activity"] [["1(", "Arrive"], ["2", "Beach"]])
        "**Day 2 Total: 300 PHP**"
      = some (Except.error "\\*\\*Day 1( Total:?\\s*([^\\*\\n]+)") := by
  decide

/-- Claim C4 (amended): for every itinerary table with a Day column all of
whose Day values are free of regex metacharacters — so each day's summary
pattern compiles and matches its day value literally — the grouping yields
one group per distinct Day value (compared as opaque strings) in
first-occurrence order, preserving original row order within each group,
taking each group's Date from the first row of that group (or empty if no
Date column) and each group's summary from the day-total search; on the
concrete table with three Day-1 rows and two Day-2 rows exactly two groups
result and the trailing Day-1 total line attaches to group 1 only. For a Day
value containing a regex metacharacter the pass instead aborts with re.error
(see the counterexample). -/
theorem itinerary_grouping_by_day (t : Table) (s : String) (h : "Day" ∈ t.headers)
    (hlit : ∀ d ∈ t.rows.map (cellAt t "Day"), dayLiteralFragment d = true) :
    (∃ gs, groupItinerary t s = some (Except.ok gs)
      ∧ (gs.map DayGroup.day).Nodup
      ∧ (∀ d, d ∈ gs.map DayGroup.day ↔ d ∈ t.rows.map (cellAt t "Day"))
      ∧ (∀ g ∈ gs, g.groupRows.Sublist t.rows)
      ∧ (∀ g ∈ gs, ∀ r, r ∈ g.groupRows ↔ r ∈ t.rows ∧ cellAt t "Day" r = g.day)
      ∧ (∀ g ∈ gs, "Date" ∈ t.headers →
          g.date = ((g.groupRows.head?).map (cellAt t "Date")).getD "")
      ∧ (∀ g ∈ gs, "Date" ∉ t.headers → g.date = "")
      ∧ (∀ g ∈ gs, searchDayTotal g.day s = Except.ok g.summary))
    ∧ groupItinerary
        (Table.mk ["Day", "Date", "Activity"]
          [["1", "2025-06-01", "Arrive"], ["1", "2025-06-01", "Lunch"],
           ["1", "2025-06-01", "Museum"], ["2", "2025-06-02", "Beach"],
           ["2", "2025-06-02", "Dinner"]])
        "Plan\n**Day 1 Total: 500 PHP**\nend"
      = some (Except.ok
        [⟨"1", "2025-06-01",
           [["1", "2025-06-01", "Arrive"], ["1", "2025-06-01", "Lunch"],
            ["1", "2025-06-01", "Museum"]], some "500 PHP"⟩,
         ⟨"2", "2025-06-02",
           [["2", "2025-06-02", "Beach"], ["2", "2025-06-02", "Dinner"]], none⟩]) := by
  constructor
  · have hdays : ∀ d ∈ firstOcc [] (t.rows.map (cellAt t "Day")),
        dayLiteralFragment d = true := by
      intro d hd
      exact hlit d ((mem_firstOcc d _ []).mp hd).1
    unfold groupItinerary
    rw [if_pos h, buildDayGroups_ok t s _ hdays]
    refine ⟨_, rfl, ?_, ?_, ?_, ?_, ?_, ?_, ?_⟩
    · rw [map_day_map _ (fun d => rfl)]
      exact nodup_firstOcc _ _
    · intro d
      rw [map_day_map _ (fun d => rfl), mem_firstOcc]
      simp
    · intro g hg
      simp only [List.mem_map] at hg
      obtain ⟨d, hd, rfl⟩ := hg
      exact List.filter_sublist _
    · intro g hg r
      simp only [List.mem_map] at hg
      obtain ⟨d, hd, rfl⟩ := hg
      simp [List.mem_filter]
    · intro g hg hdate
      simp only [List.mem_map] at hg
      obtain ⟨d, hd, rfl⟩ := hg
      simp [hdate]
    · intro g hg hdate
      simp only [List.mem_map] at hg
      obtain ⟨d, hd, rfl⟩ := hg
      simp [hdate]
    · intro g hg
      simp only [List.mem_map] at hg
      obtain ⟨d, hd, rfl⟩ := hg
      rw [searchDayTotal, if_pos (day_total_pattern_compiles d (hdays d hd))]
  · decide

theorem itinerary_grouping_by_day_witness :
    (groupItinerary (Table.mk ["Day", "Date"] [["1", "d1"], ["2", "d2"]]) "txt").isSome
      = true := by
  obtain ⟨gs, hgs, -⟩ :=
    (itinerary_grouping_by_day (Table.mk ["Day", "Date"] [["1", "d1"], ["2", "d2"]])
      "txt" (by decide) (by decide)).1
  rw [hgs]
  rfl

/-- One sheet of the exported workbook: its name and its cell grid. -/
structure Worksheet where
  sheetName : String
  sheetCells : List (List String)
deriving DecidableEq

/-- create_excel_export (app.py lines 600-608): one worksheet per named
frame, in collection order, named by the key; to_excel without the index
writes the header row first and then the data rows. The binary workbook the
writer flushes is modeled by its worksheet list; the writer accepts an empty
collection and then flushes a workbook with no sheets. The destination
argument of the source is unused by the export itself. -/
def create_excel_export (dataframes : List (String × Table)) (destination : String) :
    List Worksheet :=
  dataframes.map (fun e => ⟨e.1, e.2.headers :: e.2.rows⟩)

/-- Claim C9: exporting the collection holding a Flights table and a Hotels
table gives exactly two worksheets carrying those names, each with the
table's header row followed by its data rows in order; exporting the empty
collection succeeds (the exporter is a total function) and gives the valid
sheet-less workbook; and in general the export has one sheet per entry,
named by the entry's key. -/
theorem excel_export_sheets (t1 t2 : Table) (dest : String) :
    create_excel_export [("Flights", t1), ("Hotels", t2)] dest
      = [⟨"Flights", t1.headers :: t1.rows⟩, ⟨"Hotels", t2.headers :: t2.rows⟩]
    ∧ create_excel_export [] dest = []
    ∧ (∀ dfs : List (String × Table),
        (create_excel_export dfs dest).map Worksheet.sheetName = dfs.map Prod.fst) := by
  refine ⟨rfl, rfl, ?_⟩
  intro dfs
  rw [create_excel_export, List.map_map]
  rfl

/-- Claim C10: the day-summary lookup interpolates the Day cell value into
the regex pattern without escaping — the built pattern contains the day value
verbatim — so for the Day value with an unbalanced parenthesis the built
pattern fails the group-structure check of re.compile (re.error is raised,
aborting the rendering pass), whereas the plain numeric Day value yields a
compilable pattern. -/
theorem day_total_pattern_injects_day :
    day_total_pattern "1(" = "\\*\\*Day 1( Total:?\\s*([^\\*\\n]+)"
    ∧ regexValid (day_total_pattern "1(") = false
    ∧ regexValid (day_total_pattern "1") = true := by
  refine ⟨rfl, by decide, by decide⟩
